import Mathlib

/-!
Verification development for the QPACK core of the quiche repository.

The QPACK implementation sources (varint codec, progressive decoder,
decoded-headers accumulator, dynamic table) are not present under `src/`;
only their test file `src/quic/core/qpack/qpack_decoded_headers_accumulator_test.cc`
is.  The definitions in the `QpackModel` namespace are therefore modelled
from the specification (spec.md sections 3, 4.1, 4.3, 4.4, 4.7, 4.10),
with the in-repository test file serving as the authority wherever it
pins down observable behaviour (in particular the condition under which a
Section Acknowledgement is written to the decoder stream).

The `HeaderProperties` namespace embeds
`src/quiche/common/balsa/header_properties.cc` directly.
-/

set_option maxRecDepth 4000

namespace QpackModel

/-- Modelled from the spec: continuation bytes of the RFC7541-style prefix
integer (spec section 4.1); the varint codec implementation is missing from
`src/`.  Bit 7 of each byte is the more-follows flag, bits 0..6 carry the
payload little-endian. -/
def encodeCont (n : Nat) : List Nat :=
  if n < 128 then [n]
  else (128 + n % 128) :: encodeCont (n / 128)
termination_by n
decreasing_by
  exact Nat.div_lt_self (by omega) (by omega)

/-- Modelled from the spec: `encode_varint(value, prefix_bits,
first_byte_high_bits)` of spec section 4.1; the varint codec implementation
is missing from `src/`.  If the value fits below the all-ones prefix it is
emitted in the prefix, otherwise the prefix is all ones and the remainder
follows as continuation bytes. -/
def encodeVarint (value : Nat) (prefixBits : Nat) (highBits : Nat) : List Nat :=
  if value < 2 ^ prefixBits - 1 then [highBits + value]
  else (highBits + (2 ^ prefixBits - 1)) :: encodeCont (value - (2 ^ prefixBits - 1))

/-- Result of decoding a prefix integer: a value together with the number of
bytes consumed, a request for more input (truncated input is resumable, spec
section 4.1), or an overflow rejection. -/
inductive VarintResult where
  | ok (value : Nat) (consumed : Nat)
  | needMore
  | overflow
deriving DecidableEq, Repr

/-- Modelled from the spec: decoding of the continuation bytes of a prefix
integer (spec section 4.1); the varint codec implementation is missing from
`src/`.  Returns the accumulated remainder and the number of bytes read, or
`none` when the input ends before a byte with the more-follows flag clear. -/
def decodeCont : List Nat → Option (Nat × Nat)
  | [] => none
  | b :: rest =>
    if b < 128 then some (b, 1)
    else
      match decodeCont rest with
      | none => none
      | some (v, k) => some (b - 128 + 128 * v, k + 1)

/-- Modelled from the spec: `decode_varint(bytes, prefix_bits)` of spec
section 4.1; the varint codec implementation is missing from `src/`.
Values of `2 ^ 62` or more are rejected as overflow per the spec's error
contract. -/
def decodeVarint (bytes : List Nat) (prefixBits : Nat) : VarintResult :=
  match bytes with
  | [] => VarintResult.needMore
  | b :: rest =>
    if b % 2 ^ prefixBits < 2 ^ prefixBits - 1 then
      VarintResult.ok (b % 2 ^ prefixBits) 1
    else
      match decodeCont rest with
      | none => VarintResult.needMore
      | some (v, k) =>
        if 2 ^ prefixBits - 1 + v < 2 ^ 62 then
          VarintResult.ok (2 ^ prefixBits - 1 + v) (k + 1)
        else VarintResult.overflow

/-- Modelled from the spec: the QPACK static table (spec section 3: "a fixed
ordered sequence of 99 entries, each `(name, value)` byte strings.
Addressed 0..98"); the static-table source is missing from `src/`.
Contents are the 99 entries of the QPACK draft's static table, which the
in-repo test exercises at index 98 (present) and index 99 (absent). -/
def staticTable : List (String × String) := [
  (":authority", ""),
  (":path", "/"),
  ("age", "0"),
  ("content-disposition", ""),
  ("content-length", "0"),
  ("cookie", ""),
  ("date", ""),
  ("etag", ""),
  ("if-modified-since", ""),
  ("if-none-match", ""),
  ("last-modified", ""),
  ("link", ""),
  ("location", ""),
  ("referer", ""),
  ("set-cookie", ""),
  (":method", "CONNECT"),
  (":method", "DELETE"),
  (":method", "GET"),
  (":method", "HEAD"),
  (":method", "OPTIONS"),
  (":method", "POST"),
  (":method", "PUT"),
  (":scheme", "http"),
  (":scheme", "https"),
  (":status", "103"),
  (":status", "200"),
  (":status", "304"),
  (":status", "404"),
  (":status", "503"),
  ("accept", "*/*"),
  ("accept", "application/dns-message"),
  ("accept-encoding", "gzip, deflate, br"),
  ("accept-ranges", "bytes"),
  ("access-control-allow-headers", "cache-control"),
  ("access-control-allow-headers", "content-type"),
  ("access-control-allow-origin", "*"),
  ("cache-control", "max-age=0"),
  ("cache-control", "max-age=2592000"),
  ("cache-control", "max-age=604800"),
  ("cache-control", "no-cache"),
  ("cache-control", "no-store"),
  ("cache-control", "public, max-age=31536000"),
  ("content-encoding", "br"),
  ("content-encoding", "gzip"),
  ("content-type", "application/dns-message"),
  ("content-type", "application/javascript"),
  ("content-type", "application/json"),
  ("content-type", "application/x-www-form-urlencoded"),
  ("content-type", "image/gif"),
  ("content-type", "image/jpeg"),
  ("content-type", "image/png"),
  ("content-type", "text/css"),
  ("content-type", "text/html; charset=utf-8"),
  ("content-type", "text/plain"),
  ("content-type", "text/plain;charset=utf-8"),
  ("range", "bytes=0-"),
  ("strict-transport-security", "max-age=31536000"),
  ("strict-transport-security", "max-age=31536000; includesubdomains"),
  ("strict-transport-security", "max-age=31536000; includesubdomains; preload"),
  ("vary", "accept-encoding"),
  ("vary", "origin"),
  ("x-content-type-options", "nosniff"),
  ("x-xss-protection", "1; mode=block"),
  (":status", "100"),
  (":status", "204"),
  (":status", "206"),
  (":status", "302"),
  (":status", "400"),
  (":status", "403"),
  (":status", "421"),
  (":status", "425"),
  (":status", "500"),
  ("accept-language", ""),
  ("access-control-allow-credentials", "FALSE"),
  ("access-control-allow-credentials", "TRUE"),
  ("access-control-allow-headers", "*"),
  ("access-control-allow-methods", "get"),
  ("access-control-allow-methods", "get, post, options"),
  ("access-control-allow-methods", "options"),
  ("access-control-expose-headers", "content-length"),
  ("access-control-request-headers", "content-type"),
  ("access-control-request-method", "get"),
  ("access-control-request-method", "post"),
  ("alt-svc", "clear"),
  ("authorization", ""),
  ("content-security-policy",
    "script-src \x27none\x27; object-src \x27none\x27; base-uri \x27none\x27"),
  ("early-data", "1"),
  ("expect-ct", ""),
  ("forwarded", ""),
  ("if-range", ""),
  ("origin", ""),
  ("purpose", "prefetch"),
  ("server", ""),
  ("timing-allow-origin", "*"),
  ("upgrade-insecure-requests", "1"),
  ("user-agent", ""),
  ("x-forwarded-for", ""),
  ("x-frame-options", "deny"),
  ("x-frame-options", "sameorigin")]

/-- Static table lookup by index (spec section 4.3 `lookup_by_absolute`
analogue for the static table). -/
def staticEntry (idx : Nat) : Option (String × String) :=
  staticTable.get? idx

/-- Modelled from the spec: the decoder-side dynamic table state of spec
section 3 (`capacity`, FIFO of entries, `inserted_count`, `dropped_count`);
the dynamic-table source is missing from `src/`.  The live entries are the
contiguous suffix `[dropped_count, inserted_count)` of the absolute-index
space, stored oldest first. -/
structure DynamicTable where
  capacity : Nat
  entries : List (String × String)
  insertedCount : Nat
  droppedCount : Nat
deriving DecidableEq, Repr

/-- Entry size `name.len + value.len + 32` (spec section 3). -/
def entrySize (name value : String) : Nat := name.length + value.length + 32

/-- Cumulative size of a list of dynamic table entries (spec section 3). -/
def totalSize : List (String × String) → Nat
  | [] => 0
  | (n, v) :: rest => entrySize n v + totalSize rest

/-- Modelled from the spec: FIFO eviction from the oldest end until the
cumulative size fits the capacity (spec section 4.3). -/
def evictLoop (capacity : Nat) : List (String × String) → List (String × String)
  | [] => []
  | e :: rest =>
    if totalSize (e :: rest) ≤ capacity then e :: rest
    else evictLoop capacity rest

/-- Modelled from the spec: `lookup_by_absolute` (spec section 4.3). -/
def dynamicEntry (t : DynamicTable) (absIndex : Nat) : Option (String × String) :=
  if t.droppedCount ≤ absIndex ∧ absIndex < t.insertedCount then
    t.entries.get? (absIndex - t.droppedCount)
  else none

/-- Modelled from the spec: `insert(name, value)` (spec section 4.3).  The
new entry takes absolute index `inserted_count`; older entries are evicted
to restore the capacity invariant; an entry larger than the whole table
capacity is a fatal encoder-stream error, modelled as `none`. -/
def tableInsert (t : DynamicTable) (name value : String) : Option DynamicTable :=
  if t.capacity < entrySize name value then none
  else
    let kept := evictLoop (t.capacity - entrySize name value) t.entries
    some { capacity := t.capacity
           entries := kept ++ [(name, value)]
           insertedCount := t.insertedCount + 1
           droppedCount := t.droppedCount + (t.entries.length - kept.length) }

/-- Modelled from the spec: `set_capacity(c)` (spec section 4.3).  A
capacity above the advertised maximum is a fatal encoder-stream error,
modelled as `none`; otherwise the capacity is updated and the oldest
entries are evicted until the cumulative size fits. -/
def tableSetCapacity (maxCapacity : Nat) (t : DynamicTable) (c : Nat) :
    Option DynamicTable :=
  if maxCapacity < c then none
  else
    let kept := evictLoop c t.entries
    some { t with
           capacity := c
           entries := kept
           droppedCount := t.droppedCount + (t.entries.length - kept.length) }

/-- Modelled from the spec: the progressive decoder state of spec section
4.7 (`ReadingPrefix`, `Blocked`, `Body`, `Done`, `Error`).  `Prefix` is the
spec's `ReadingPrefix`. -/
inductive Stage where
  | Prefix
  | Blocked
  | Body
  | Done
  | Error
deriving DecidableEq, Repr

/-- Observable events of the accumulator: the two terminal visitor
callbacks of spec section 4.10 and a write to the decoder stream through
the stream sender (spec section 6 `StreamSender.write`). -/
inductive Event where
  | onDecoded (headers : List (String × String)) (uncompressed compressed : Nat)
  | onError (message : String)
  | streamWrite (bytes : List Nat)
deriving DecidableEq, Repr

/-- Modelled from the spec: the combined state of one decoded-headers
accumulator (spec section 4.10) with its progressive decoder (spec section
3, "Progressive Decoder State") and the connection's decoder-side dynamic
table; the accumulator and decoder sources are missing from `src/`.
`buffer` holds the not-yet-consumed wire bytes, `ric`/`base` the decoded
header block prefix, `entries`/`uncompressed`/`compressed` the header list
under construction with its two byte counters, `runningSize` the spec's
`running_size`, and `endCalled` whether `end_header_block` was deferred
while blocked. -/
structure AccState where
  table : DynamicTable
  stage : Stage
  buffer : List Nat
  ric : Nat
  base : Nat
  entries : List (String × String)
  uncompressed : Nat
  compressed : Nat
  runningSize : Nat
  overLimit : Bool
  endCalled : Bool
  errMsg : String
deriving DecidableEq, Repr

/-- Bytes to an ASCII string. -/
def bytesToString (bs : List Nat) : String :=
  String.mk (bs.map Char.ofNat)

/-- Result of reading a length-prefixed string literal. -/
inductive StrResult where
  | ok (s : String) (rest : List Nat)
  | needMore
  | err (msg : String)
deriving DecidableEq, Repr

/-- Modelled from the spec: the string literal codec (spec section 4.2): a
length-prefixed byte string with a Huffman flag just above the length
prefix in the first byte.  Huffman decoding itself is an external consumed
service (spec section 6, `StaticHuffmanTables`) and is out of the modelled
scope; a Huffman-flagged string yields the codec's Huffman error, which no
claim exercises. -/
def readString (prefixBits : Nat) (bytes : List Nat) : StrResult :=
  match bytes with
  | [] => StrResult.needMore
  | b :: rest =>
    match decodeVarint (b :: rest) prefixBits with
    | VarintResult.needMore => StrResult.needMore
    | VarintResult.overflow => StrResult.err "Encoded integer too large."
    | VarintResult.ok len consumed =>
      let rest2 := (b :: rest).drop consumed
      if rest2.length < len then StrResult.needMore
      else if (b / 2 ^ prefixBits) % 2 == 1 then
        StrResult.err "Error in Huffman-encoded string."
      else StrResult.ok (bytesToString (rest2.take len)) (rest2.drop len)

/-- Result of parsing one header-block body instruction. -/
inductive InstrResult where
  | ok (name value : String) (rest : List Nat)
  | needMore
  | err (msg : String)
deriving DecidableEq, Repr

/-- Modelled from the spec: the five header-block body instructions of spec
section 4.4, dispatched on the high-order bits of the first byte, with the
reference-resolution rules of spec section 4.7 (relative dynamic index
`Base - 1 - rel` with `rel < Base`, post-base index `Base + idx < RIC`);
the instruction decoder source is missing from `src/`. -/
def parseInstr (table : DynamicTable) (ric base : Nat) (bytes : List Nat) :
    InstrResult :=
  match bytes with
  | [] => InstrResult.needMore
  | b :: rest =>
    if 128 ≤ b then
      match decodeVarint (b :: rest) 6 with
      | VarintResult.needMore => InstrResult.needMore
      | VarintResult.overflow => InstrResult.err "Encoded integer too large."
      | VarintResult.ok idx consumed =>
        let rest2 := (b :: rest).drop consumed
        if (b / 64) % 2 == 1 then
          match staticEntry idx with
          | some nv => InstrResult.ok nv.1 nv.2 rest2
          | none => InstrResult.err "Static table entry not found."
        else
          if base ≤ idx then InstrResult.err "Invalid relative index."
          else
            match dynamicEntry table (base - 1 - idx) with
            | some nv => InstrResult.ok nv.1 nv.2 rest2
            | none => InstrResult.err "Dynamic table entry not found."
    else if 64 ≤ b then
      match decodeVarint (b :: rest) 4 with
      | VarintResult.needMore => InstrResult.needMore
      | VarintResult.overflow => InstrResult.err "Encoded integer too large."
      | VarintResult.ok idx consumed =>
        let rest2 := (b :: rest).drop consumed
        let nameFound : Except String String :=
          if (b / 16) % 2 == 1 then
            match staticEntry idx with
            | some nv => Except.ok nv.1
            | none => Except.error "Static table entry not found."
          else
            if base ≤ idx then Except.error "Invalid relative index."
            else
              match dynamicEntry table (base - 1 - idx) with
              | some nv => Except.ok nv.1
              | none => Except.error "Dynamic table entry not found."
        match nameFound with
        | Except.error msg => InstrResult.err msg
        | Except.ok name =>
          match readString 7 rest2 with
          | StrResult.needMore => InstrResult.needMore
          | StrResult.err msg => InstrResult.err msg
          | StrResult.ok value rest3 => InstrResult.ok name value rest3
    else if 32 ≤ b then
      match readString 3 (b :: rest) with
      | StrResult.needMore => InstrResult.needMore
      | StrResult.err msg => InstrResult.err msg
      | StrResult.ok name rest2 =>
        match readString 7 rest2 with
        | StrResult.needMore => InstrResult.needMore
        | StrResult.err msg => InstrResult.err msg
        | StrResult.ok value rest3 => InstrResult.ok name value rest3
    else if 16 ≤ b then
      match decodeVarint (b :: rest) 4 with
      | VarintResult.needMore => InstrResult.needMore
      | VarintResult.overflow => InstrResult.err "Encoded integer too large."
      | VarintResult.ok idx consumed =>
        let rest2 := (b :: rest).drop consumed
        if ric ≤ base + idx then InstrResult.err "Invalid post-base index."
        else
          match dynamicEntry table (base + idx) with
          | some nv => InstrResult.ok nv.1 nv.2 rest2
          | none => InstrResult.err "Dynamic table entry not found."
    else
      match decodeVarint (b :: rest) 3 with
      | VarintResult.needMore => InstrResult.needMore
      | VarintResult.overflow => InstrResult.err "Encoded integer too large."
      | VarintResult.ok idx consumed =>
        let rest2 := (b :: rest).drop consumed
        if ric ≤ base + idx then InstrResult.err "Invalid post-base index."
        else
          match dynamicEntry table (base + idx) with
          | none => InstrResult.err "Dynamic table entry not found."
          | some nv =>
            match readString 7 rest2 with
            | StrResult.needMore => InstrResult.needMore
            | StrResult.err msg => InstrResult.err msg
            | StrResult.ok value rest3 => InstrResult.ok nv.1 value rest3

/-- Modelled from the spec: reconstruction of the Required Insert Count
from its encoded form (spec sections 3 and 4.7: inverse of
`(RIC mod (2 * MaxEntries)) + 1`, with `MaxEntries =
floor(maximum_dynamic_table_capacity / 32)`), selecting the candidate
nearest the decoder's total insert count; invalid encodings yield `none`. -/
def decodeRequiredInsertCount (maxEntries totalInserts encoded : Nat) :
    Option Nat :=
  if encoded = 0 then some 0
  else
    if 2 * maxEntries < encoded then none
    else
      let maxValue := totalInserts + maxEntries
      let maxWrapped := maxValue / (2 * maxEntries) * (2 * maxEntries)
      let r := maxWrapped + encoded - 1
      if maxValue < r then
        if r ≤ 2 * maxEntries then none
        else some (r - 2 * maxEntries)
      else
        if r = 0 then none else some r

/-- Result of parsing the header block prefix. -/
inductive PrefixResult where
  | ok (ric base : Nat) (rest : List Nat)
  | needMore
  | err (msg : String)
deriving DecidableEq, Repr

/-- Configuration of one decoder-side connection (spec section 6 settings
plus the per-stream `max_header_list_size` and the request stream's id). -/
structure Config where
  maxTableCapacity : Nat
  maxBlockedStreams : Nat
  maxHeaderListSize : Nat
  streamId : Nat
deriving DecidableEq, Repr

/-- Modelled from the spec: parsing of the header block prefix (spec
sections 3 and 4.7): an 8-bit-prefix varint holding the encoded Required
Insert Count, then a sign bit and a 7-bit-prefix varint holding the delta
from which Base is computed (`Base = RIC + delta` when the sign is clear,
`Base = RIC - delta - 1` otherwise). -/
def parseHeaderBlockPrefix (cfg : Config) (table : DynamicTable)
    (bytes : List Nat) : PrefixResult :=
  match decodeVarint bytes 8 with
  | VarintResult.needMore => PrefixResult.needMore
  | VarintResult.overflow => PrefixResult.err "Encoded integer too large."
  | VarintResult.ok encodedRic c1 =>
    match bytes.drop c1 with
    | [] => PrefixResult.needMore
    | b :: rest =>
      match decodeVarint (b :: rest) 7 with
      | VarintResult.needMore => PrefixResult.needMore
      | VarintResult.overflow => PrefixResult.err "Encoded integer too large."
      | VarintResult.ok delta c2 =>
        match decodeRequiredInsertCount (cfg.maxTableCapacity / 32)
            table.insertedCount encodedRic with
        | none => PrefixResult.err "Error decoding Required Insert Count."
        | some ric =>
          if (b / 128) % 2 == 1 then
            if ric < delta + 1 then PrefixResult.err "Error decoding Base."
            else PrefixResult.ok ric (ric - delta - 1) ((b :: rest).drop c2)
          else PrefixResult.ok ric (ric + delta) ((b :: rest).drop c2)

/-- Transition into the `Error` state, recording the message (spec section
4.7: "Any parse or table error: transition to `Error` immediately with a
short human-readable message"). -/
def mkError (s : AccState) (msg : String) : AccState :=
  { s with stage := Stage.Error, errMsg := msg }

/-- Modelled from the spec: accumulation of one decoded field line (spec
section 4.7): append `(name, value)` to the header list, add
`name.len + value.len` to the uncompressed counter and
`name.len + value.len + 32` to `running_size`; when `running_size` exceeds
`max_header_list_size` the list is marked over-limit but parsing
continues. -/
def addField (cfg : Config) (name value : String) (s : AccState) : AccState :=
  { s with
    entries := s.entries ++ [(name, value)]
    uncompressed := s.uncompressed + name.length + value.length
    runningSize := s.runningSize + name.length + value.length + 32
    overLimit := s.overLimit ||
      decide (cfg.maxHeaderListSize <
        s.runningSize + name.length + value.length + 32) }

/-- Modelled from the spec: the `Body` consumption loop of spec section 4.7,
driven by fuel (each parsed instruction consumes at least one buffered
byte, so `buffer.length` fuel suffices): parse instructions until the
buffer holds no complete instruction, accumulating field lines, or stop on
the first error. -/
def bodyLoop (cfg : Config) : Nat → AccState → AccState
  | 0, s => s
  | fuel + 1, s =>
    match parseInstr s.table s.ric s.base s.buffer with
    | InstrResult.needMore => s
    | InstrResult.err msg => mkError s msg
    | InstrResult.ok name value rest =>
      bodyLoop cfg fuel (addField cfg name value { s with buffer := rest })

/-- Runs the body loop over the whole buffered input. -/
def bodyRun (cfg : Config) (s : AccState) : AccState :=
  bodyLoop cfg s.buffer.length s

/-- Modelled from the spec: drive the progressive decoder over its buffer
(spec section 4.7): in `ReadingPrefix`, parse the header block prefix and
transition to `Body` when `RIC ≤ inserted_count` and to `Blocked`
otherwise; in `Body`, consume instructions. -/
def processBuffer (cfg : Config) (s : AccState) : AccState :=
  match s.stage with
  | Stage.Prefix =>
    match parseHeaderBlockPrefix cfg s.table s.buffer with
    | PrefixResult.needMore => s
    | PrefixResult.err msg => mkError s msg
    | PrefixResult.ok ric base rest =>
      if ric ≤ s.table.insertedCount then
        bodyRun cfg
          { s with stage := Stage.Body, ric := ric, base := base, buffer := rest }
      else
        { s with stage := Stage.Blocked, ric := ric, base := base, buffer := rest }
  | Stage.Body => bodyRun cfg s
  | _ => s

/-- Whether a terminal callback has already been delivered: the accumulator
is inert in `Done` and `Error` (spec section 4.10: "may synchronously fire
`on_error` and must then become inert"; at-most-one terminal callback). -/
def isTerminal (s : AccState) : Bool :=
  s.stage == Stage.Done || s.stage == Stage.Error

/-- Wire bytes of the Section Acknowledgement decoder-stream instruction
for a stream id: opcode bit `1`, 7-bit-prefix stream id varint (spec
section 4.4). -/
def sectionAckBytes (streamId : Nat) : List Nat :=
  encodeVarint streamId 7 128

/-- Modelled from the spec and the in-repo test: completion of a header
block (spec section 4.7 `EndOfBlock`): emit the header list — the empty
sentinel with both byte counters zero when over-limit (spec section 7) —
and transition to `Done`.  A Section Acknowledgement is written to the
decoder stream only when the block's Required Insert Count is nonzero:
`src/quic/core/qpack/qpack_decoded_headers_accumulator_test.cc` installs a
`StrictMock` stream sender delegate (line 65) and the `EmptyHeaderList`,
`Success` and `ExceedingLimit` tests (all with RIC encoded as 0) expect no
`WriteStreamData` call, while the `BlockedDecoding` tests (RIC = 1) expect
exactly one. -/
def finalize (cfg : Config) (s : AccState) : AccState × List Event :=
  let ackEvents :=
    if 0 < s.ric then [Event.streamWrite (sectionAckBytes cfg.streamId)] else []
  if s.overLimit then
    ({ s with stage := Stage.Done }, ackEvents ++ [Event.onDecoded [] 0 0])
  else
    ({ s with stage := Stage.Done },
      ackEvents ++ [Event.onDecoded s.entries s.uncompressed s.compressed])

/-- Turn a freshly entered `Error` state into its synchronous `on_error`
visitor event (spec section 4.10: "progressive decoder may synchronously
fire `on_error`"). -/
def emitIfError (s : AccState) : AccState × List Event :=
  if s.stage = Stage.Error then (s, [Event.onError s.errMsg]) else (s, [])

/-- Modelled from the spec: `decode(bytes)` (spec section 4.10): append the
bytes, count them in the compressed counter, and run the progressive
decoder unless blocked; a decoding error fires `on_error` synchronously and
the accumulator becomes inert.  `on_decoded` never fires here: completion
is delivered by `end_header_block` or by a later unblock. -/
def decodeOp (cfg : Config) (s : AccState) (bytes : List Nat) :
    AccState × List Event :=
  if isTerminal s then (s, [])
  else if s.stage = Stage.Blocked then
    ({ s with
        buffer := s.buffer ++ bytes
        compressed := s.compressed + bytes.length }, [])
  else
    emitIfError (processBuffer cfg
      { s with
        buffer := s.buffer ++ bytes
        compressed := s.compressed + bytes.length })

/-- Modelled from the spec: `end_header_block()` (spec section 4.10): an
incomplete prefix is the "Incomplete header data prefix." error; while
blocked the close is deferred to the eventual unblock; in `Body` a
non-empty buffer (a partial instruction) is the "Incomplete header block."
error and an empty buffer completes the block. -/
def endHeaderBlock (cfg : Config) (s : AccState) : AccState × List Event :=
  if isTerminal s then (s, [])
  else if s.stage = Stage.Prefix then
    (mkError s "Incomplete header data prefix.",
      [Event.onError "Incomplete header data prefix."])
  else if s.stage = Stage.Blocked then ({ s with endCalled := true }, [])
  else if s.stage = Stage.Body then
    (if s.buffer.isEmpty then finalize cfg s
     else
      (mkError s "Incomplete header block.",
        [Event.onError "Incomplete header block."]))
  else (s, [])

/-- Modelled from the spec: the peer's `Set Dynamic Table Capacity`
encoder-stream instruction reaching the decoder (spec section 4.5).  A
capacity above the advertised maximum is an encoder-stream error reported
on the connection error channel (a no-op delegate in the in-repo test),
never through the accumulator's visitor, so the accumulator state is
unchanged and no visitor event fires. -/
def setCapacityOp (cfg : Config) (s : AccState) (c : Nat) :
    AccState × List Event :=
  match tableSetCapacity cfg.maxTableCapacity s.table c with
  | none => (s, [])
  | some t => ({ s with table := t }, [])

/-- Modelled from the spec: delivery after a blocked stream resumes (spec
sections 4.7, 4.8 and 7): an error discovered after the late unblock still
reaches the visitor; a deferred `end_header_block` completes the block when
the buffered body has been fully consumed and is the "Incomplete header
block." error otherwise; with no deferred close the decoder simply waits
for more request-stream bytes. -/
def resumeAfterUnblock (cfg : Config) (s2 : AccState) : AccState × List Event :=
  if s2.stage = Stage.Error then (s2, [Event.onError s2.errMsg])
  else if s2.endCalled then
    if s2.buffer.isEmpty then finalize cfg s2
    else
      (mkError s2 "Incomplete header block.",
        [Event.onError "Incomplete header block."])
  else (s2, [])

/-- Modelled from the spec: the peer's `Insert Without Name Reference`
encoder-stream instruction reaching the decoder (spec sections 4.5, 4.7 and
4.8): the insertion mutates the dynamic table and, when it raises
`inserted_count` past a blocked stream's Required Insert Count, the
progressive decoder resumes on its buffered bytes.  A table-level insertion
error is an encoder-stream error reported on the connection error channel,
not through the visitor. -/
def insertOp (cfg : Config) (s : AccState) (name value : String) :
    AccState × List Event :=
  match tableInsert s.table name value with
  | none => (s, [])
  | some t =>
    if s.stage = Stage.Blocked ∧ s.ric ≤ t.insertedCount then
      resumeAfterUnblock cfg
        (bodyRun cfg { s with table := t, stage := Stage.Body })
    else ({ s with table := t }, [])

/-- The operations that can reach one accumulator over its lifetime:
request-stream bytes, the close call, and the peer's encoder-stream
events. -/
inductive Op where
  | decode (bytes : List Nat)
  | endBlock
  | setCapacity (c : Nat)
  | insert (name value : String)

/-- Dispatch one operation. -/
def applyOp (cfg : Config) (s : AccState) : Op → AccState × List Event
  | Op.decode bytes => decodeOp cfg s bytes
  | Op.endBlock => endHeaderBlock cfg s
  | Op.setCapacity c => setCapacityOp cfg s c
  | Op.insert name value => insertOp cfg s name value

/-- Run a sequence of operations, concatenating the emitted events. -/
def runOps (cfg : Config) (s : AccState) : List Op → AccState × List Event
  | [] => (s, [])
  | op :: ops =>
    let r1 := applyOp cfg s op
    let r2 := runOps cfg r1.1 ops
    (r2.1, r1.2 ++ r2.2)

/-- The empty dynamic table: capacity starts at 0 until the peer's
set-capacity instruction arrives (spec section 4.3). -/
def initTable : DynamicTable :=
  { capacity := 0, entries := [], insertedCount := 0, droppedCount := 0 }

/-- A fresh accumulator awaiting the header block prefix. -/
def initState : AccState :=
  { table := initTable
    stage := Stage.Prefix
    buffer := []
    ric := 0
    base := 0
    entries := []
    uncompressed := 0
    compressed := 0
    runningSize := 0
    overLimit := false
    endCalled := false
    errMsg := "" }

/-- The configuration of the in-repo test fixture
(`src/quic/core/qpack/qpack_decoded_headers_accumulator_test.cc` lines
27-36): maximum dynamic table capacity 100, maximum blocked streams 1,
maximum header list size 100, stream id 1. -/
def testConfig : Config :=
  { maxTableCapacity := 100
    maxBlockedStreams := 1
    maxHeaderListSize := 100
    streamId := 1 }

/-- Whether an event is a terminal visitor callback. -/
def isTerminalEvent : Event → Bool
  | Event.onDecoded _ _ _ => true
  | Event.onError _ => true
  | Event.streamWrite _ => false

/-- Number of terminal visitor callbacks in an event list. -/
def terminalCount (events : List Event) : Nat :=
  events.countP isTerminalEvent

/-- Whether an event is an `on_decoded` delivery. -/
def isOnDecoded : Event → Bool
  | Event.onDecoded _ _ _ => true
  | _ => false

/-- Whether an event is a decoder-stream write. -/
def isStreamWrite : Event → Bool
  | Event.streamWrite _ => true
  | _ => false

/-- Sum of `len(name) + len(value)` over a header list (spec section 3's
`uncompressed_header_bytes`). -/
def sumSizes : List (String × String) → Nat
  | [] => 0
  | (n, v) :: rest => n.length + v.length + sumSizes rest

/-- An `on_decoded` event is well-counted when its uncompressed byte
counter is the sum of the field sizes of the delivered list. -/
def eventOk : Event → Bool
  | Event.onDecoded headers uncompressed _ => uncompressed == sumSizes headers
  | _ => true

/-- Terminal-callback budget of a state: a fresh accumulator may deliver
one terminal callback, an inert one none. -/
def budget (s : AccState) : Nat :=
  if isTerminal s then 0 else 1

/-- The wire bytes of the in-repo test's `Success` scenario:
`000023666f6f03626172`. -/
def successBytes : List Nat :=
  [0x00, 0x00, 0x23, 0x66, 0x6f, 0x6f, 0x03, 0x62, 0x61, 0x72]

/-- The wire bytes of the in-repo test's `EmptyHeaderList` scenario:
`0000`. -/
def emptyListBytes : List Nat := [0x00, 0x00]

/-- The wire bytes of the in-repo test's `BlockedDecoding` scenario:
`020080`. -/
def blockedBytes : List Nat := [0x02, 0x00, 0x80]

/-- The wire bytes of the in-repo test's `InvalidPayload` scenario:
`0000ff23ff24`. -/
def invalidStaticBytes : List Nat :=
  [0x00, 0x00, 0xff, 0x23, 0xff, 0x24]

/-- The wire bytes of the in-repo test's `ExceedingLimit` scenario: prefix
`0000`, literal name "foobar", then a 125-byte value of repeated `a`. -/
def overLimitBytes : List Nat :=
  [0x00, 0x00, 0x26, 0x66, 0x6f, 0x6f, 0x62, 0x61, 0x72, 0x7d] ++
    List.replicate 125 0x61

/-- The header-list invariant: the uncompressed byte counter equals the sum
of the field sizes of the accumulated entries (spec section 3). -/
def countersOk (s : AccState) : Prop :=
  s.uncompressed = sumSizes s.entries

end QpackModel

namespace HeaderProperties

/-- Embeds `buildInvalidCharLookupTable` of
`src/quiche/common/balsa/header_properties.cc` (lines 62-69): a 256-entry
boolean table, filled with `false` and then set to `true` at every
character of `kInvalidHeaderCharList`.  The list itself is declared in
`header_properties.h`, which is not under `src/`, so the development is
parameterised by it (`invalidCharList`); characters are bytes (`Fin 256`). -/
def buildInvalidCharLookupTable (invalidCharList : List (Fin 256)) : Fin 256 → Bool :=
  invalidCharList.foldl (fun table c => Function.update table c true) (fun _ => false)

/-- Embeds `IsInvalidHeaderChar` of
`src/quiche/common/balsa/header_properties.cc` (lines 79-84): a lookup in
the table built from `kInvalidHeaderCharList`. -/
def IsInvalidHeaderChar (invalidCharList : List (Fin 256)) (c : Fin 256) : Bool :=
  buildInvalidCharLookupTable invalidCharList c

/-- Embeds `HasInvalidHeaderChars` of
`src/quiche/common/balsa/header_properties.cc` (lines 86-93): a loop over
the value's characters returning `true` on the first invalid one. -/
def HasInvalidHeaderChars (invalidCharList : List (Fin 256)) :
    List (Fin 256) → Bool
  | [] => false
  | c :: rest =>
    IsInvalidHeaderChar invalidCharList c ||
      HasInvalidHeaderChars invalidCharList rest

end HeaderProperties

namespace HeaderProperties

theorem foldl_update_eq (l : List (Fin 256)) (f : Fin 256 → Bool) (c : Fin 256) :
    (l.foldl (fun table x => Function.update table x true) f) c =
      (f c || decide (c ∈ l)) := by
  induction l generalizing f with
  | nil => simp
  | cons x xs ih =>
    simp only [List.foldl_cons, ih, List.mem_cons]
    by_cases hx : c = x
    · subst hx
      simp [Function.update]
    · simp [Function.update, hx]

theorem isInvalidHeaderChar_iff_mem (l : List (Fin 256)) (c : Fin 256) :
    IsInvalidHeaderChar l c = true ↔ c ∈ l := by
  unfold IsInvalidHeaderChar buildInvalidCharLookupTable
  rw [foldl_update_eq]
  simp

/-- Claim C10: for every byte string `value`, `HasInvalidHeaderChars value`
returns `true` if and only if some character `c` of `value` satisfies
`IsInvalidHeaderChar c`, where `IsInvalidHeaderChar c` holds exactly when
`c` appears in `kInvalidHeaderCharList`; in particular
`HasInvalidHeaderChars` of the empty string is `false`.  (Both functions
are pure Lean functions of the invalid-character list, so determinism
across calls is inherent in the embedding.) -/
theorem hasInvalidHeaderChars_spec (invalidCharList : List (Fin 256))
    (value : List (Fin 256)) :
    (HasInvalidHeaderChars invalidCharList value = true ↔
      ∃ c ∈ value, IsInvalidHeaderChar invalidCharList c = true) ∧
    (∀ c, IsInvalidHeaderChar invalidCharList c = true ↔ c ∈ invalidCharList) ∧
    HasInvalidHeaderChars invalidCharList [] = false := by
  refine ⟨?_, fun c => isInvalidHeaderChar_iff_mem invalidCharList c, rfl⟩
  induction value with
  | nil => simp [HasInvalidHeaderChars]
  | cons x xs ih =>
    simp only [HasInvalidHeaderChars, Bool.or_eq_true, ih, List.mem_cons]
    constructor
    · rintro (hx | ⟨c, hc, hinv⟩)
      · exact ⟨x, Or.inl rfl, hx⟩
      · exact ⟨c, Or.inr hc, hinv⟩
    · rintro ⟨c, rfl | hc, hinv⟩
      · exact Or.inl hinv
      · exact Or.inr ⟨c, hc, hinv⟩

/-- Witness for C10: at the concrete invalid-character list `[0, 13]` and
value `[65, 13]` the claim's consequences evaluate as expected. -/
theorem hasInvalidHeaderChars_spec_witness :
    (HasInvalidHeaderChars [(0 : Fin 256), 13] [(65 : Fin 256), 13] = true ↔
      ∃ c ∈ [(65 : Fin 256), 13],
        IsInvalidHeaderChar [(0 : Fin 256), 13] c = true) ∧
    (∀ c, IsInvalidHeaderChar [(0 : Fin 256), 13] c = true ↔
      c ∈ [(0 : Fin 256), 13]) ∧
    HasInvalidHeaderChars [(0 : Fin 256), 13] [] = false :=
  hasInvalidHeaderChars_spec [(0 : Fin 256), 13] [(65 : Fin 256), 13]

end HeaderProperties

namespace QpackModel

theorem decodeCont_encodeCont (n : Nat) :
    decodeCont (encodeCont n) = some (n, (encodeCont n).length) := by
  induction n using Nat.strong_induction_on with
  | _ n ih =>
    rw [encodeCont]
    by_cases h : n < 128
    · simp [h, decodeCont]
    · have hlt : n / 128 < n := Nat.div_lt_self (by omega) (by omega)
      have hmod : n % 128 < 128 := Nat.mod_lt _ (by omega)
      simp only [h, if_false, decodeCont, ih (n / 128) hlt]
      have hge : ¬ 128 + n % 128 < 128 := by omega
      simp only [hge, if_false]
      have hmd : n % 128 + 128 * (n / 128) = n := by
        have := Nat.mod_add_div n 128
        omega
      simp [hmd]

theorem encodeCont_length_pos (n : Nat) : 0 < (encodeCont n).length := by
  rw [encodeCont]
  by_cases h : n < 128 <;> simp [h]

/-- Claim C9: for every value `v` with `0 ≤ v < 2 ^ 62` and every prefix
width `N` with `1 ≤ N ≤ 8`, decoding the byte sequence produced by
`encode_varint(v, N)` with the same prefix width `N` yields exactly the
pair `(v, number of bytes produced)`: the prefix-integer codec round-trips
and reports the exact encoded length. -/
theorem varint_roundtrip (v n : Nat) (h62 : v < 2 ^ 62) (h1 : 1 ≤ n) (h8 : n ≤ 8) :
    decodeVarint (encodeVarint v n 0) n =
      VarintResult.ok v (encodeVarint v n 0).length := by
  have hpow : 0 < 2 ^ n := Nat.pos_pow_of_pos n (by omega)
  have hmasklt : 2 ^ n - 1 < 2 ^ n := by omega
  unfold encodeVarint
  by_cases hv : v < 2 ^ n - 1
  · simp only [hv, if_true, decodeVarint, Nat.zero_add]
    have hvlt : v < 2 ^ n := by omega
    rw [Nat.mod_eq_of_lt hvlt]
    simp [hv]
  · simp only [hv, if_false, decodeVarint, Nat.zero_add]
    rw [Nat.mod_eq_of_lt hmasklt]
    simp only [lt_irrefl, if_false, decodeCont_encodeCont]
    have hsum : 2 ^ n - 1 + (v - (2 ^ n - 1)) = v := by omega
    rw [hsum]
    have h62' : v < 4611686018427387904 := by omega
    simp [h62']

/-- Witness for C9: the round-trip law holds at the concrete input
`v = 1337`, `N = 5`, where the encoding takes three bytes. -/
theorem varint_roundtrip_witness :
    decodeVarint (encodeVarint 1337 5 0) 5 =
      VarintResult.ok 1337 (encodeVarint 1337 5 0).length :=
  varint_roundtrip 1337 5 (by decide) (by decide) (by decide)

theorem sumSizes_append (l : List (String × String)) (n v : String) :
    sumSizes (l ++ [(n, v)]) = sumSizes l + (n.length + v.length) := by
  induction l with
  | nil => simp [sumSizes]
  | cons x xs ih =>
    cases x with
    | mk xn xv => simp [sumSizes, ih]; omega

theorem addField_fields (cfg : Config) (name value : String) (s : AccState) :
    (addField cfg name value s).ric = s.ric ∧
    (addField cfg name value s).compressed = s.compressed ∧
    (addField cfg name value s).stage = s.stage ∧
    (countersOk s → countersOk (addField cfg name value s)) := by
  unfold addField countersOk
  simp [sumSizes_append]
  omega

theorem mkError_fields (s : AccState) (msg : String) :
    (mkError s msg).ric = s.ric ∧
    (mkError s msg).compressed = s.compressed ∧
    (mkError s msg).stage = Stage.Error ∧
    (countersOk s → countersOk (mkError s msg)) := by
  unfold mkError countersOk
  simp

theorem bodyLoop_fields (cfg : Config) (fuel : Nat) (s : AccState) :
    (bodyLoop cfg fuel s).ric = s.ric ∧
    (bodyLoop cfg fuel s).compressed = s.compressed ∧
    (countersOk s → countersOk (bodyLoop cfg fuel s)) := by
  induction fuel generalizing s with
  | zero => exact ⟨rfl, rfl, fun h => h⟩
  | succ n ih =>
    rw [bodyLoop]
    cases hp : parseInstr s.table s.ric s.base s.buffer with
    | needMore => exact ⟨rfl, rfl, fun h => h⟩
    | err msg =>
      refine ⟨rfl, rfl, fun h => ?_⟩
      exact (mkError_fields s msg).2.2.2 h
    | ok name value rest =>
      have ha := addField_fields cfg name value { s with buffer := rest }
      have hi := ih (addField cfg name value { s with buffer := rest })
      refine ⟨?_, ?_, ?_⟩
      · rw [hi.1, ha.1]
      · rw [hi.2.1, ha.2.1]
      · intro h
        exact hi.2.2 (ha.2.2.2 h)

theorem bodyRun_fields (cfg : Config) (s : AccState) :
    (bodyRun cfg s).ric = s.ric ∧
    (bodyRun cfg s).compressed = s.compressed ∧
    (countersOk s → countersOk (bodyRun cfg s)) :=
  bodyLoop_fields cfg s.buffer.length s

theorem processBuffer_fields (cfg : Config) (s : AccState) :
    (processBuffer cfg s).compressed = s.compressed ∧
    (countersOk s → countersOk (processBuffer cfg s)) := by
  unfold processBuffer
  split
  · split
    · exact ⟨rfl, fun h => h⟩
    · exact ⟨(mkError_fields _ _).2.1, (mkError_fields _ _).2.2.2⟩
    · split
      · exact ⟨(bodyRun_fields cfg _).2.1, fun h => (bodyRun_fields cfg _).2.2 h⟩
      · exact ⟨rfl, fun h => h⟩
  · exact ⟨(bodyRun_fields cfg _).2.1, (bodyRun_fields cfg _).2.2⟩
  all_goals exact ⟨rfl, fun h => h⟩

theorem terminalCount_nil : terminalCount [] = 0 := rfl

theorem terminalCount_append (a b : List Event) :
    terminalCount (a ++ b) = terminalCount a + terminalCount b :=
  List.countP_append _ _ _

theorem terminalCount_onError (msg : String) :
    terminalCount [Event.onError msg] = 1 := rfl

theorem budget_le_one (s : AccState) : budget s ≤ 1 := by
  unfold budget
  split <;> omega

theorem budget_of_stage_error (s : AccState) (h : s.stage = Stage.Error) :
    budget s = 0 := by
  simp [budget, isTerminal, h]

theorem budget_mkError (s : AccState) (msg : String) :
    budget (mkError s msg) = 0 := by
  simp [budget, isTerminal, mkError]

theorem finalize_terminal (cfg : Config) (s : AccState) :
    terminalCount (finalize cfg s).2 = 1 ∧ budget (finalize cfg s).1 = 0 := by
  unfold finalize
  cases hov : s.overLimit <;>
    by_cases hr : 0 < s.ric <;>
      simp [hr, terminalCount, isTerminalEvent, budget, isTerminal,
        List.countP_append, List.countP_cons]

theorem emitIfError_budget (s : AccState) :
    terminalCount (emitIfError s).2 + budget (emitIfError s).1 ≤ 1 := by
  unfold emitIfError
  split
  · rename_i h
    rw [budget_of_stage_error s h, terminalCount_onError]
  · have := budget_le_one s
    simp [terminalCount_nil]
    omega

theorem resumeAfterUnblock_budget (cfg : Config) (s : AccState) :
    terminalCount (resumeAfterUnblock cfg s).2 +
      budget (resumeAfterUnblock cfg s).1 ≤ 1 := by
  unfold resumeAfterUnblock
  split
  · rename_i h
    rw [budget_of_stage_error s h, terminalCount_onError]
  · split
    · split
      · have := finalize_terminal cfg s
        omega
      · rw [budget_mkError, terminalCount_onError]
    · have := budget_le_one s
      simp [terminalCount_nil]
      omega

theorem applyOp_budget (cfg : Config) (s : AccState) (op : Op) :
    terminalCount (applyOp cfg s op).2 + budget (applyOp cfg s op).1 ≤
      budget s := by
  cases op with
  | decode bytes =>
    show terminalCount (decodeOp cfg s bytes).2 +
      budget (decodeOp cfg s bytes).1 ≤ budget s
    unfold decodeOp
    split
    · rename_i ht
      simp [terminalCount_nil, budget, ht]
    · rename_i ht
      have hb : budget s = 1 := by simp [budget, ht]
      rw [hb]
      split
      · rename_i hblk
        have : budget { s with
            buffer := s.buffer ++ bytes
            compressed := s.compressed + bytes.length } ≤ 1 := budget_le_one _
        simp [terminalCount_nil]
        omega
      · exact emitIfError_budget _
  | endBlock =>
    show terminalCount (endHeaderBlock cfg s).2 +
      budget (endHeaderBlock cfg s).1 ≤ budget s
    unfold endHeaderBlock
    split
    · rename_i ht
      simp [terminalCount_nil, budget, ht]
    · rename_i ht
      have hb : budget s = 1 := by simp [budget, ht]
      rw [hb]
      split
      · rw [budget_mkError, terminalCount_onError]
      · split
        · have : budget { s with endCalled := true } ≤ 1 := budget_le_one _
          simp [terminalCount_nil]
          omega
        · split
          · split
            · have := finalize_terminal cfg s
              omega
            · rw [budget_mkError, terminalCount_onError]
          · have := budget_le_one s
            simp [terminalCount_nil]
            omega
  | setCapacity c =>
    show terminalCount (setCapacityOp cfg s c).2 +
      budget (setCapacityOp cfg s c).1 ≤ budget s
    unfold setCapacityOp
    split
    · simp [terminalCount_nil]
    · rename_i t ht
      have h1 : budget { s with table := t } = budget s := by
        simp [budget, isTerminal]
      simp [terminalCount_nil, h1]
  | insert name value =>
    show terminalCount (insertOp cfg s name value).2 +
      budget (insertOp cfg s name value).1 ≤ budget s
    unfold insertOp
    split
    · simp [terminalCount_nil]
    · rename_i t ht
      split
      · rename_i hcond
        have hb : budget s = 1 := by
          simp [budget, isTerminal, hcond.1]
        rw [hb]
        exact resumeAfterUnblock_budget cfg _
      · have h1 : budget { s with table := t } = budget s := by
          simp [budget, isTerminal]
        simp [terminalCount_nil, h1]

theorem finalize_fst (cfg : Config) (s : AccState) :
    (finalize cfg s).1 = { s with stage := Stage.Done } := by
  unfold finalize
  cases hov : s.overLimit <;> simp [hov]

theorem finalize_events_decomp (cfg : Config) (s : AccState) :
    (finalize cfg s).2 =
      (if 0 < s.ric then [Event.streamWrite (sectionAckBytes cfg.streamId)]
        else []) ++
      [Event.onDecoded (if s.overLimit then [] else s.entries)
        (if s.overLimit then 0 else s.uncompressed)
        (if s.overLimit then 0 else s.compressed)] := by
  unfold finalize
  cases hov : s.overLimit <;> simp [hov]

theorem finalize_eventsOk (cfg : Config) (s : AccState) (h : countersOk s) :
    (finalize cfg s).2.all eventOk = true := by
  unfold countersOk at h
  rw [finalize_events_decomp]
  cases hov : s.overLimit <;> by_cases hr : 0 < s.ric <;>
    simp [hr, eventOk, sumSizes, h]

theorem emitIfError_fields (s : AccState) :
    (emitIfError s).1 = s ∧ (emitIfError s).2.all eventOk = true := by
  unfold emitIfError
  split <;> simp [eventOk]

theorem resumeAfterUnblock_eventsOk (cfg : Config) (s : AccState)
    (h : countersOk s) :
    (resumeAfterUnblock cfg s).2.all eventOk = true ∧
    countersOk (resumeAfterUnblock cfg s).1 := by
  unfold resumeAfterUnblock
  split
  · exact ⟨by simp [eventOk], h⟩
  · split
    · split
      · refine ⟨finalize_eventsOk cfg s h, ?_⟩
        rw [finalize_fst]
        exact h
      · exact ⟨by simp [eventOk], (mkError_fields _ _).2.2.2 h⟩
    · exact ⟨rfl, h⟩

theorem resumeAfterUnblock_ack (cfg : Config) (s : AccState) :
    (resumeAfterUnblock cfg s).2.any isOnDecoded = true →
      ((Event.streamWrite (sectionAckBytes cfg.streamId) ∈
        (resumeAfterUnblock cfg s).2) ↔ 0 < s.ric) := by
  unfold resumeAfterUnblock
  split
  · intro h
    simp [isOnDecoded] at h
  · split
    · split
      · intro _
        rw [finalize_events_decomp]
        by_cases hr : 0 < s.ric <;> simp [hr]
      · intro h
        simp [isOnDecoded] at h
    · intro h
      simp at h

theorem endHeaderBlock_ack (cfg : Config) (s : AccState) :
    (endHeaderBlock cfg s).2.any isOnDecoded = true →
      ((Event.streamWrite (sectionAckBytes cfg.streamId) ∈
        (endHeaderBlock cfg s).2) ↔ 0 < s.ric) := by
  unfold endHeaderBlock
  split
  · intro h
    simp at h
  · split
    · intro h
      simp [isOnDecoded] at h
    · split
      · intro h
        simp at h
      · split
        · split
          · intro _
            rw [finalize_events_decomp]
            by_cases hr : 0 < s.ric <;> simp [hr]
          · intro h
            simp [isOnDecoded] at h
        · intro h
          simp at h

theorem insertOp_ack (cfg : Config) (s : AccState) (name value : String) :
    (insertOp cfg s name value).2.any isOnDecoded = true →
      ((Event.streamWrite (sectionAckBytes cfg.streamId) ∈
        (insertOp cfg s name value).2) ↔ 0 < s.ric) := by
  unfold insertOp
  split
  · intro h
    simp at h
  · rename_i t ht
    split
    · have hric : (bodyRun cfg { s with table := t, stage := Stage.Body }).ric =
          s.ric := (bodyRun_fields cfg _).1
      intro h
      have hr := resumeAfterUnblock_ack cfg
        (bodyRun cfg { s with table := t, stage := Stage.Body }) h
      rw [hric] at hr
      exact hr
    · intro h
      simp at h

theorem applyOp_eventsOk (cfg : Config) (s : AccState) (op : Op)
    (h : countersOk s) :
    (applyOp cfg s op).2.all eventOk = true ∧
    countersOk (applyOp cfg s op).1 := by
  cases op with
  | decode bytes =>
    show (decodeOp cfg s bytes).2.all eventOk = true ∧
      countersOk (decodeOp cfg s bytes).1
    unfold decodeOp
    split
    · exact ⟨rfl, h⟩
    · split
      · exact ⟨rfl, h⟩
      · have hpb := (processBuffer_fields cfg
          { s with
            buffer := s.buffer ++ bytes
            compressed := s.compressed + bytes.length }).2 h
        have he := emitIfError_fields (processBuffer cfg
          { s with
            buffer := s.buffer ++ bytes
            compressed := s.compressed + bytes.length })
        refine ⟨he.2, ?_⟩
        rw [he.1]
        exact hpb
  | endBlock =>
    show (endHeaderBlock cfg s).2.all eventOk = true ∧
      countersOk (endHeaderBlock cfg s).1
    unfold endHeaderBlock
    split
    · exact ⟨rfl, h⟩
    · split
      · exact ⟨by simp [eventOk], (mkError_fields _ _).2.2.2 h⟩
      · split
        · exact ⟨rfl, h⟩
        · split
          · split
            · refine ⟨finalize_eventsOk cfg s h, ?_⟩
              rw [finalize_fst]
              exact h
            · exact ⟨by simp [eventOk], (mkError_fields _ _).2.2.2 h⟩
          · exact ⟨rfl, h⟩
  | setCapacity c =>
    show (setCapacityOp cfg s c).2.all eventOk = true ∧
      countersOk (setCapacityOp cfg s c).1
    unfold setCapacityOp
    split
    · exact ⟨rfl, h⟩
    · exact ⟨rfl, h⟩
  | insert name value =>
    show (insertOp cfg s name value).2.all eventOk = true ∧
      countersOk (insertOp cfg s name value).1
    unfold insertOp
    split
    · exact ⟨rfl, h⟩
    · rename_i t ht
      split
      · have hb := (bodyRun_fields cfg
          { s with table := t, stage := Stage.Body }).2.2 h
        exact resumeAfterUnblock_eventsOk cfg _ hb
      · exact ⟨rfl, h⟩

theorem runOps_eventsOk (cfg : Config) (ops : List Op) (s : AccState)
    (h : countersOk s) :
    (runOps cfg s ops).2.all eventOk = true := by
  induction ops generalizing s with
  | nil => rfl
  | cons op ops ih =>
    rw [runOps]
    simp only [List.all_append]
    have h1 := applyOp_eventsOk cfg s op h
    rw [h1.1, ih _ h1.2]
    rfl

theorem runOps_budget (cfg : Config) (ops : List Op) (s : AccState) :
    terminalCount (runOps cfg s ops).2 ≤ budget s := by
  induction ops generalizing s with
  | nil => simp [runOps, terminalCount_nil]
  | cons op ops ih =>
    rw [runOps]
    simp only [terminalCount_append]
    have h1 := applyOp_budget cfg s op
    have h2 := ih (applyOp cfg s op).1
    omega

/-- Claim C1: feeding the accumulator the header block `020080`, whose
Required Insert Count (1) exceeds the dynamic table's inserted count (0),
and calling `end_header_block` while the stream is still blocked fires no
terminal callback; when the peer's set-capacity and
insert-without-name-reference of `("foo", "bar")` raise the inserted count
to the Required Insert Count, the accumulator delivers `on_decoded` with
the decoded list `[("foo", "bar")]` and the Section Acknowledgement byte
`0x81` for stream id 1 is written to the decoder stream. -/
theorem blocked_then_unblock :
    ((runOps testConfig initState
        [Op.decode blockedBytes, Op.endBlock]).2 = []) ∧
    ((runOps testConfig initState
        [Op.decode blockedBytes, Op.endBlock, Op.setCapacity 100,
          Op.insert "foo" "bar"]).2 =
      [Event.streamWrite [0x81],
        Event.onDecoded [("foo", "bar")] 6 3]) :=
  ⟨by decide, by decide⟩

/-- Claim C2: a blocked decoder that buffered `0200`, `80`, `81` without
any visitor event — the invalid dynamic reference (`81`, relative index 1
at Base 1) is accepted silently while blocked — delivers
`on_error("Invalid relative index.")` through the visitor when a later
insertion of `("foo", "bar")` unblocks the stream. -/
theorem unblock_then_error :
    ((runOps testConfig initState
        [Op.decode [0x02, 0x00], Op.decode [0x80], Op.decode [0x81]]).2 =
      []) ∧
    ((runOps testConfig initState
        [Op.decode [0x02, 0x00], Op.decode [0x80], Op.decode [0x81],
          Op.setCapacity 100, Op.insert "foo" "bar"]).2 =
      [Event.onError "Invalid relative index."]) :=
  ⟨by decide, by decide⟩

/-- Counterexample to claim C3 as stated: the `Success` header block
(`000023666f6f03626172`, Required Insert Count encoded as 0) is decoded
successfully — `on_decoded` fires — yet nothing is written to the decoder
stream: the decoder does not send a Section Acknowledgement for a block
that references no dynamic table entries. -/
theorem sectionAck_counterexample :
    ((runOps testConfig initState
        [Op.decode successBytes, Op.endBlock]).2.any isOnDecoded = true) ∧
    ((runOps testConfig initState
        [Op.decode successBytes, Op.endBlock]).2.any isStreamWrite =
      false) :=
  ⟨by decide, by decide⟩

/-- Claim C3 (amended): for every header block that completes successfully
the decoder emits the header list, and it sends a Section Acknowledgement
on the decoder stream exactly when the block's Required Insert Count is
nonzero; blocks with Required Insert Count encoded as 0 deliver the header
list without any Section Acknowledgement. -/
theorem sectionAck_iff_ric_positive (cfg : Config) (s : AccState)
    (name value : String) :
    ((endHeaderBlock cfg s).2.any isOnDecoded = true →
      ((Event.streamWrite (sectionAckBytes cfg.streamId) ∈
        (endHeaderBlock cfg s).2) ↔ 0 < s.ric)) ∧
    ((insertOp cfg s name value).2.any isOnDecoded = true →
      ((Event.streamWrite (sectionAckBytes cfg.streamId) ∈
        (insertOp cfg s name value).2) ↔ 0 < s.ric)) ∧
    (s.stage = Stage.Body → s.buffer = [] →
      (endHeaderBlock cfg s).2.any isOnDecoded = true) := by
  refine ⟨endHeaderBlock_ack cfg s, insertOp_ack cfg s name value, ?_⟩
  intro hstage hbuf
  have hterm : isTerminal s = false := by simp [isTerminal, hstage]
  unfold endHeaderBlock
  rw [if_neg (by simp [hterm]), if_neg (by simp [hstage]),
    if_neg (by simp [hstage]), if_pos hstage, if_pos (by simp [hbuf])]
  rw [finalize_events_decomp]
  by_cases hr : 0 < s.ric <;> simp [hr, isOnDecoded]

/-- Witness for the amended C3: in the `BlockedDecoding` scenario the
deferred completion delivered by the unblocking insertion has Required
Insert Count 1, and the Section Acknowledgement is indeed among the emitted
events. -/
theorem sectionAck_iff_ric_positive_witness :
    (Event.streamWrite
        (sectionAckBytes testConfig.streamId) ∈
      (insertOp testConfig
        (setCapacityOp testConfig
          (runOps testConfig initState
            [Op.decode blockedBytes, Op.endBlock]).1 100).1
        "foo" "bar").2) ↔
      0 < (setCapacityOp testConfig
        (runOps testConfig initState
          [Op.decode blockedBytes, Op.endBlock]).1 100).1.ric :=
  (sectionAck_iff_ric_positive testConfig _ "foo" "bar").2.1 (by decide)

/-- Claim C4: decoding `000023666f6f03626172` then closing yields
`on_decoded([("foo", "bar")])` with 6 uncompressed and 10 compressed bytes;
decoding `0000` then closing yields `on_decoded([])` with 0 uncompressed
and 2 compressed bytes; in general every delivered header list carries an
uncompressed byte counter equal to the sum of `len(name) + len(value)` over
its pairs, and the compressed byte counter accumulates exactly the wire
bytes consumed by each `decode` call. -/
theorem header_list_counters (cfg : Config) (ops : List Op) (s : AccState)
    (bytes : List Nat) :
    ((runOps testConfig initState
        [Op.decode successBytes, Op.endBlock]).2 =
      [Event.onDecoded [("foo", "bar")] 6 10]) ∧
    ((runOps testConfig initState
        [Op.decode emptyListBytes, Op.endBlock]).2 =
      [Event.onDecoded [] 0 2]) ∧
    ((runOps cfg initState ops).2.all eventOk = true) ∧
    ((decodeOp cfg s bytes).1.compressed =
      s.compressed + (if isTerminal s then 0 else bytes.length)) := by
  refine ⟨by decide, by decide, runOps_eventsOk cfg ops initState rfl, ?_⟩
  unfold decodeOp
  split
  · rename_i ht
    simp [ht]
  · rename_i ht
    split
    · rfl
    · rw [(emitIfError_fields _).1, (processBuffer_fields cfg _).1]

/-- Witness for C4: at the fresh accumulator and the `Success` scenario's
operation list the universal clauses hold concretely. -/
theorem header_list_counters_witness :
    ((runOps testConfig initState
        [Op.decode successBytes, Op.endBlock]).2.all eventOk = true) ∧
    ((decodeOp testConfig initState successBytes).1.compressed =
      initState.compressed +
        (if isTerminal initState then 0 else successBytes.length)) :=
  ⟨(header_list_counters testConfig
      [Op.decode successBytes, Op.endBlock] initState successBytes).2.2.1,
    (header_list_counters testConfig
      [Op.decode successBytes, Op.endBlock] initState successBytes).2.2.2⟩

/-- Claim C5: a header block whose accumulated field sizes push the running
size past `max_header_list_size` is not an error: the `ExceedingLimit`
scenario completes with `on_decoded([])` carrying zero byte counters; in
general, completing any over-limit block delivers exactly the empty
sentinel list with both counters zero (preceded only by the Section
Acknowledgement when the Required Insert Count is nonzero, never by
`on_error`), and accumulating a field never changes the decoder's stage, so
the over-limit condition itself can never produce an error. -/
theorem over_limit_sentinel (cfg : Config) (s : AccState)
    (name value : String) :
    ((runOps testConfig initState
        [Op.decode overLimitBytes, Op.endBlock]).2 =
      [Event.onDecoded [] 0 0]) ∧
    (s.stage = Stage.Body → s.buffer = [] → s.overLimit = true →
      (endHeaderBlock cfg s).2 =
        (if 0 < s.ric then
          [Event.streamWrite (sectionAckBytes cfg.streamId)] else []) ++
        [Event.onDecoded [] 0 0]) ∧
    ((addField cfg name value s).stage = s.stage) := by
  refine ⟨by decide, ?_, (addField_fields cfg name value s).2.2.1⟩
  intro hstage hbuf hov
  have hterm : isTerminal s = false := by simp [isTerminal, hstage]
  unfold endHeaderBlock
  rw [if_neg (by simp [hterm]), if_neg (by simp [hstage]),
    if_neg (by simp [hstage]), if_pos hstage, if_pos (by simp [hbuf])]
  rw [finalize_events_decomp]
  simp [hov]

/-- Witness for C5: the universal sentinel clause instantiated at the state
reached by decoding the `ExceedingLimit` wire bytes. -/
theorem over_limit_sentinel_witness :
    (endHeaderBlock testConfig
      (decodeOp testConfig initState overLimitBytes).1).2 =
      (if 0 < (decodeOp testConfig initState overLimitBytes).1.ric then
        [Event.streamWrite (sectionAckBytes testConfig.streamId)] else []) ++
      [Event.onDecoded [] 0 0] :=
  (over_limit_sentinel testConfig
      (decodeOp testConfig initState overLimitBytes).1 "" "").2.1
    (by decide) (by decide) (by decide)

/-- Claim C6: calling `end_header_block` before a complete header block
prefix has been decoded — with no bytes at all, or with only the byte
`00` — delivers exactly `on_error("Incomplete header data prefix.")` and
never `on_decoded`; the call is safe on a fresh accumulator with no prior
`decode`. -/
theorem incomplete_prefix_error (cfg : Config) (s : AccState) :
    ((endHeaderBlock testConfig initState).2 =
      [Event.onError "Incomplete header data prefix."]) ∧
    ((runOps testConfig initState [Op.decode [0x00], Op.endBlock]).2 =
      [Event.onError "Incomplete header data prefix."]) ∧
    (s.stage = Stage.Prefix →
      (endHeaderBlock cfg s).2 =
        [Event.onError "Incomplete header data prefix."] ∧
      (endHeaderBlock cfg s).2.any isOnDecoded = false) := by
  refine ⟨by decide, by decide, fun hstage => ?_⟩
  have hterm : isTerminal s = false := by simp [isTerminal, hstage]
  unfold endHeaderBlock
  rw [if_neg (by simp [hterm]), if_pos hstage]
  exact ⟨rfl, rfl⟩

/-- Witness for C6: the universal clause instantiated at the fresh
accumulator, whose stage is `Prefix`. -/
theorem incomplete_prefix_error_witness :
    (endHeaderBlock testConfig initState).2 =
      [Event.onError "Incomplete header data prefix."] ∧
    (endHeaderBlock testConfig initState).2.any isOnDecoded = false :=
  (incomplete_prefix_error testConfig initState).2.2 (by decide)

/-- Claim C7: feeding `0000ff23ff24` — whose second indexed field line
refers to static index 99, which has no entry — fires
`on_error("Static table entry not found.")` synchronously during the
`decode` call itself, without `end_header_block`, and the accumulator then
becomes inert: once terminal, `decode`, `end_header_block` and the peer's
encoder-stream events emit no further visitor events and leave the
accumulator's stage unchanged. -/
theorem invalid_static_sync_error (cfg : Config) (s : AccState)
    (bytes : List Nat) (name value : String) (c : Nat) :
    ((decodeOp testConfig initState invalidStaticBytes).2 =
      [Event.onError "Static table entry not found."]) ∧
    ((decodeOp testConfig initState invalidStaticBytes).1.stage =
      Stage.Error) ∧
    (isTerminal s = true →
      decodeOp cfg s bytes = (s, []) ∧
      endHeaderBlock cfg s = (s, []) ∧
      (insertOp cfg s name value).2 = [] ∧
      (insertOp cfg s name value).1.stage = s.stage ∧
      (setCapacityOp cfg s c).2 = []) := by
  refine ⟨by decide, by decide, fun hterm => ?_⟩
  have hstage : s.stage = Stage.Done ∨ s.stage = Stage.Error := by
    simpa [isTerminal] using hterm
  have hins : (insertOp cfg s name value).2 = [] ∧
      (insertOp cfg s name value).1.stage = s.stage := by
    unfold insertOp
    split
    · exact ⟨rfl, rfl⟩
    · rename_i t ht
      split
      · rename_i hcond
        exfalso
        rcases hstage with h | h <;> rw [h] at hcond <;>
          exact absurd hcond.1 (by decide)
      · exact ⟨rfl, rfl⟩
  refine ⟨?_, ?_, hins.1, hins.2, ?_⟩
  · unfold decodeOp
    rw [if_pos (by simp [hterm])]
  · unfold endHeaderBlock
    rw [if_pos (by simp [hterm])]
  · unfold setCapacityOp
    split <;> rfl

/-- Witness for C7: the inertness clause instantiated at the terminal state
reached by the `InvalidPayload` scenario. -/
theorem invalid_static_sync_error_witness :
    decodeOp testConfig
        (decodeOp testConfig initState invalidStaticBytes).1 [0x00] =
      ((decodeOp testConfig initState invalidStaticBytes).1, []) ∧
    endHeaderBlock testConfig
        (decodeOp testConfig initState invalidStaticBytes).1 =
      ((decodeOp testConfig initState invalidStaticBytes).1, []) ∧
    (insertOp testConfig
      (decodeOp testConfig initState invalidStaticBytes).1 "foo" "bar").2 =
      [] ∧
    (insertOp testConfig
        (decodeOp testConfig initState invalidStaticBytes).1
        "foo" "bar").1.stage =
      (decodeOp testConfig initState invalidStaticBytes).1.stage ∧
    (setCapacityOp testConfig
      (decodeOp testConfig initState invalidStaticBytes).1 100).2 = [] :=
  (invalid_static_sync_error testConfig
      (decodeOp testConfig initState invalidStaticBytes).1
      [0x00] "foo" "bar" 100).2.2 (by decide)

/-- Claim C8: over any sequence of `decode` calls, `end_header_block`
calls, and unblocking encoder-stream events applied to a fresh accumulator,
at most one terminal visitor callback (`on_decoded` or `on_error` combined)
is ever delivered. -/
theorem at_most_one_terminal (cfg : Config) (ops : List Op) :
    terminalCount (runOps cfg initState ops).2 ≤ 1 := by
  have h := runOps_budget cfg ops initState
  have hb : budget initState = 1 := by decide
  omega

/-- Witness for C8: the full `BlockedDecoding` operation sequence delivers
at most one terminal callback. -/
theorem at_most_one_terminal_witness :
    terminalCount (runOps testConfig initState
      [Op.decode blockedBytes, Op.endBlock, Op.setCapacity 100,
        Op.insert "foo" "bar"]).2 ≤ 1 :=
  at_most_one_terminal testConfig
    [Op.decode blockedBytes, Op.endBlock, Op.setCapacity 100,
      Op.insert "foo" "bar"]

end QpackModel
